import Mathlib

/-!
Verification development for the vessel port-call lifecycle tracker in
`src/monitor.py`.  The monitor-mode core (status normalisation, identity
resolution, the stopwatch transition engine, new-arrival detection, stale
cleanup and history truncation) is embedded as executable Lean functions.
Timestamps are rational numbers of seconds since the epoch; durations are
rational hours.  Python dicts are modelled as association lists in
insertion order; `None`-able JSON fields are `Option String`.
-/

namespace Monitor

/-- Status vocabulary sets from the top of `monitor.py`. -/
def LOADING_STATUSES : List String := ["EN CHARGEMENT", "EN DECHARGEMENT"]

def COMPLETED_STATUSES : List String := ["APPAREILLAGE", "TERMINE"]

def ANCHORAGE_STATUSES : List String := ["EN RADE"]

def BERTH_STATUSES : List String := ["A QUAI"] ++ LOADING_STATUSES

def MAIN_STATUSES : List String := ["PREVU", "EN RADE", "A QUAI", "APPAREILLAGE"]

def ALLOWED_PORTS : List String := ["16", "17", "18"]

/-- Python `str.strip` whitespace test (the characters relevant to the feed). -/
def isStripChar (c : Char) : Bool :=
  c = ' ' || c = '\t' || c = '\n' || c = '\r'

/-- Python `raw.strip()` on the underlying character list. -/
def pyStrip (s : String) : String :=
  ⟨((s.data.dropWhile isStripChar).reverse.dropWhile isStripChar).reverse⟩

/-- Python `raw.upper()` on the underlying character list. -/
def pyUpper (s : String) : String :=
  ⟨s.data.map Char.toUpper⟩

/-- `normalize_status` from `monitor.py`: empty input gives UNKNOWN; loading
statuses collapse to "A QUAI"; completed statuses collapse to
"APPAREILLAGE"; the four main statuses and any other status are returned
as-is after strip/upper. -/
def normalize_status (raw_status : String) : String :=
  if raw_status = "" then "UNKNOWN"
  else
    let status := pyUpper (pyStrip raw_status)
    if status ∈ LOADING_STATUSES then "A QUAI"
    else if status ∈ COMPLETED_STATUSES then "APPAREILLAGE"
    else if status ∈ MAIN_STATUSES then status
    else status

/-- One feed record, restricted to the fields the tracker reads.  `none`
models an absent key (`dict.get` default applies). -/
structure RawRecord where
  nUMERO_LLOYDField : Option String
  nUMERO_ESCALEField : Option String
  cODE_SOCIETEField : Option String
  sITUATIONField : Option String
  nOM_NAVIREField : Option String
  cONSIGNATAIREField : Option String
deriving DecidableEq

/-- Identity key: `f"{e.get('nUMERO_LLOYDField','0')}-{e.get('nUMERO_ESCALEField','0')}"`. -/
def vessel_id (e : RawRecord) : String :=
  e.nUMERO_LLOYDField.getD "0" ++ "-" ++ e.nUMERO_ESCALEField.getD "0"

/-- `str(e.get("cODE_SOCIETEField"))`: an absent key prints as "None". -/
def portCodeStr (e : RawRecord) : String :=
  match e.cODE_SOCIETEField with
  | some s => s
  | none => "None"

/-- `port_name` from `monitor.py` (applied to the possibly-absent code). -/
def port_name (code : Option String) : String :=
  match code with
  | some "16" => "Tan Tan"
  | some "17" => "Laâyoune"
  | some "18" => "Dakhla"
  | some c => "Port " ++ c
  | none => "Port None"

/-- Python `round(x, 1)`: one decimal place (round-half-up on the scaled
value; Python uses round-half-even, which differs only at exact ties and at
no input of this development). -/
def round1 (x : ℚ) : ℚ := (((x * 10 + 1 / 2 : ℚ).floor : ℤ) : ℚ) / 10

/-- An in-progress tracked call, exactly the dict built by `main`:
`entry`, `current_status`, the two accumulators (hours), `first_seen`,
`last_updated` and `last_seen` (seconds). -/
structure TrackedCall where
  entry : RawRecord
  current_status : String
  anchorage_hours : ℚ
  berth_hours : ℚ
  first_seen : ℚ
  last_updated : Option ℚ
  last_seen : ℚ
deriving DecidableEq

/-- A history record as appended by `main` on completion. -/
structure CompletedCall where
  vessel : String
  agent : String
  port : String
  port_code : Option String
  anchorage_hours : ℚ
  berth_hours : ℚ
  arrival : ℚ
  departure : ℚ
  total_duration : ℚ
deriving DecidableEq

/-- `update_vessel_timers` from `monitor.py`: accumulate elapsed hours into
the accumulator matching the *current* status, then overwrite the status and
refresh both timestamps.  A missing `last_updated` skips accumulation. -/
def update_vessel_timers (active_vessel : TrackedCall) (new_status : String)
    (now_utc : ℚ) : TrackedCall :=
  let v :=
    match active_vessel.last_updated with
    | some last_updated =>
      let elapsed_hours := (now_utc - last_updated) / 3600
      if active_vessel.current_status ∈ ANCHORAGE_STATUSES then
        { active_vessel with
          anchorage_hours := active_vessel.anchorage_hours + elapsed_hours }
      else if active_vessel.current_status ∈ BERTH_STATUSES then
        { active_vessel with
          berth_hours := active_vessel.berth_hours + elapsed_hours }
      else active_vessel
    | none => active_vessel
  { v with current_status := new_status, last_updated := some now_utc,
           last_seen := now_utc }

/-- A live-feed entry after normalisation: the raw record plus its
normalized status (`live_vessels[v_id] = {"e": e, "status": clean_status}`). -/
structure LiveRec where
  e : RawRecord
  status : String
deriving DecidableEq

/-- Association-list lookup with decidable string keys (Python `dict.get`). -/
def alookup {β : Type} (k : String) : List (String × β) → Option β
  | [] => none
  | (k₁, v) :: rest => if k₁ = k then some v else alookup k rest

/-- `d[k] = v` on a Python dict: replace in place, else append. -/
def upsert {β : Type} (l : List (String × β)) (k : String) (v : β) :
    List (String × β) :=
  match l with
  | [] => [(k, v)]
  | (k₁, v₁) :: rest =>
      if k₁ = k then (k, v) :: rest else (k₁, v₁) :: upsert rest k v

/-- Building `live_vessels` from the fetched feed: keep records of the
allowed ports, normalize their status, key by `vessel_id`. -/
def build_live_vessels (all_data : List RawRecord) : List (String × LiveRec) :=
  all_data.foldl
    (fun m e =>
      if portCodeStr e ∈ ALLOWED_PORTS then
        upsert m (vessel_id e) ⟨e, normalize_status (e.sITUATIONField.getD "")⟩
      else m)
    []

/-- The history dict appended on completion, built from the tracked call
*after* `update_vessel_timers` but *before* the entry snapshot is replaced. -/
def make_completed (stored : TrackedCall) (now_utc : ℚ) : CompletedCall :=
  { vessel := stored.entry.nOM_NAVIREField.getD "Unknown"
    agent := stored.entry.cONSIGNATAIREField.getD "Inconnu"
    port := port_name stored.entry.cODE_SOCIETEField
    port_code := stored.entry.cODE_SOCIETEField
    anchorage_hours := round1 stored.anchorage_hours
    berth_hours := round1 stored.berth_hours
    arrival := stored.first_seen
    departure := now_utc
    total_duration := round1 (stored.anchorage_hours + stored.berth_hours) }

/-- One iteration of the `for v_id, stored in active.items()` loop: the
updated tracked call, an optional history record, and the removal flag. -/
def process_active_entry (live_vessels : List (String × LiveRec)) (now_utc : ℚ)
    (v_id : String) (stored : TrackedCall) :
    TrackedCall × Option CompletedCall × Bool :=
  match alookup v_id live_vessels with
  | some live =>
      let new_status := live.status
      let prev_status := stored.current_status
      let stored1 := update_vessel_timers stored new_status now_utc
      if prev_status = "A QUAI" ∧
          (new_status = "APPAREILLAGE" ∨ new_status = "TERMINE") then
        ({ stored1 with entry := live.e }, some (make_completed stored1 now_utc),
         true)
      else
        ({ stored1 with entry := live.e }, none, false)
  | none =>
      let current_status := stored.current_status
      if current_status ∈ ANCHORAGE_STATUSES ++ BERTH_STATUSES then
        (update_vessel_timers stored current_status now_utc, none, false)
      else (stored, none, false)

/-- The whole update loop: per-entry results collected in iteration order
(updated values, history additions, keys marked for removal). -/
def run_update_loop (active : List (String × TrackedCall))
    (live_vessels : List (String × LiveRec)) (now_utc : ℚ) :
    List (String × TrackedCall) × List CompletedCall × List String :=
  (active.map (fun kv => (kv.1, (process_active_entry live_vessels now_utc kv.1 kv.2).1)),
   active.filterMap (fun kv => (process_active_entry live_vessels now_utc kv.1 kv.2).2.1),
   (active.filter (fun kv => (process_active_entry live_vessels now_utc kv.1 kv.2).2.2)).map
     Prod.fst)

/-- `alerts.setdefault(p, []).append(e)`. -/
def alert_add (alerts : List (String × List RawRecord)) (p : String)
    (e : RawRecord) : List (String × List RawRecord) :=
  match alerts with
  | [] => [(p, [e])]
  | (p₁, es) :: rest =>
      if p₁ = p then (p₁, es ++ [e]) :: rest else (p₁, es) :: alert_add rest p e

/-- The new-vessel loop over `live_vessels`: identities absent from the
active store are registered, except that on a still-empty store a
non-"PREVU" identity is skipped; "PREVU" registrations raise an alert. -/
def new_vessel_loop (now_utc : ℚ) :
    List (String × TrackedCall) × List (String × List RawRecord) →
    List (String × LiveRec) →
    List (String × TrackedCall) × List (String × List RawRecord)
  | acc, [] => acc
  | (active, alerts), (v_id, live) :: rest =>
      if (alookup v_id active).isSome then
        new_vessel_loop now_utc (active, alerts) rest
      else if active.length = 0 ∧ live.status ≠ "PREVU" then
        new_vessel_loop now_utc (active, alerts) rest
      else
        let nv : TrackedCall :=
          ⟨live.e, live.status, 0, 0, now_utc, some now_utc, now_utc⟩
        if live.status = "PREVU" then
          new_vessel_loop now_utc
            (active ++ [(v_id, nv)],
             alert_add alerts (port_name live.e.cODE_SOCIETEField) live.e) rest
        else new_vessel_loop now_utc (active ++ [(v_id, nv)], alerts) rest

/-- State cleanup (the 3-day reaper): keep entries whose `last_seen` is
strictly newer than `now - 3 days` (259200 s). -/
def cleanup_active (active : List (String × TrackedCall)) (now_utc : ℚ) :
    List (String × TrackedCall) :=
  active.filter (fun kv => decide (kv.2.last_seen > now_utc - 259200))

/-- `history[-1000:]`. -/
def pyLast1000 (l : List CompletedCall) : List CompletedCall :=
  l.drop (l.length - 1000)

/-- The outcome of one monitor run: persisted active store, persisted
history, and the arrival alerts handed to the notifier. -/
structure RunResult where
  active : List (String × TrackedCall)
  history : List CompletedCall
  alerts : List (String × List RawRecord)
deriving DecidableEq

/-- One monitor-mode pass of `main` after the feed fetch: update loop,
removal of completed calls, new-vessel registration, stale cleanup, history
truncation. -/
def process_run (active : List (String × TrackedCall))
    (history : List CompletedCall) (live_vessels : List (String × LiveRec))
    (now_utc : ℚ) : RunResult :=
  let updated := run_update_loop active live_vessels now_utc
  let histAdds := updated.2.1
  let to_remove := updated.2.2
  let active2 := updated.1.filter (fun kv => decide (kv.1 ∉ to_remove))
  let res := new_vessel_loop now_utc (active2, []) live_vessels
  ⟨cleanup_active res.1 now_utc, pyLast1000 (history ++ histAdds), res.2⟩

/-- A full pass starting from the raw feed records. -/
def process_feed (active : List (String × TrackedCall))
    (history : List CompletedCall) (all_data : List RawRecord) (now_utc : ℚ) :
    RunResult :=
  process_run active history (build_live_vessels all_data) now_utc

/-- Iterated monitor runs (for multi-poll properties). -/
def process_runs : List (String × TrackedCall) → List CompletedCall →
    List (List (String × LiveRec) × ℚ) → RunResult
  | a, h, [] => ⟨a, h, []⟩
  | a, h, (live, t) :: rest =>
      let r := process_run a h live t
      process_runs r.active r.history rest

/-- Specification-side sum: total elapsed hours attributed to anchorage by
a sequence of observations `(new status, poll time)`, starting from a given
stored status and last-update timestamp. -/
def anchorage_sum : String → Option ℚ → List (String × ℚ) → ℚ
  | _, _, [] => 0
  | st, lu, (s, t) :: rest =>
      (match lu with
       | some l => if st ∈ ANCHORAGE_STATUSES then (t - l) / 3600 else 0
       | none => 0) + anchorage_sum s (some t) rest

/-- Specification-side sum of elapsed hours attributed to berth. -/
def berth_sum : String → Option ℚ → List (String × ℚ) → ℚ
  | _, _, [] => 0
  | st, lu, (s, t) :: rest =>
      (match lu with
       | some l => if st ∈ BERTH_STATUSES then (t - l) / 3600 else 0
       | none => 0) + berth_sum s (some t) rest

/-! ### Concrete records for scenario runs -/

/-- A feed record for vessel X (lloyd 111, escale E1, port 16) carrying the
given raw situation string. -/
def recX (s : String) : RawRecord :=
  ⟨some "111", some "E1", some "16", some s, some "X", some "AG"⟩

/-- A feed record for vessel Y (lloyd 222, escale E2, port 16). -/
def recY (s : String) : RawRecord :=
  ⟨some "222", some "E2", some "16", some s, some "Y", some "AG"⟩

/-- A feed record for X with the situation field absent (normalizes to
UNKNOWN). -/
def recXnone : RawRecord := ⟨some "111", some "E1", some "16", none, some "X", some "AG"⟩

/-- A tracked call for X currently at anchorage since t = 0. -/
def vAnch : TrackedCall := ⟨recX "EN RADE", "EN RADE", 0, 0, 0, some 0, 0⟩

/-- A tracked call for X currently at berth, with nonzero accumulators. -/
def vBerth : TrackedCall := ⟨recX "A QUAI", "A QUAI", 2, 3, 0, some 0, 0⟩

/-- A tracked call last seen one second beyond the 3-day retention at
`now = 1000000`. -/
def vStale : TrackedCall := ⟨recX "PREVU", "PREVU", 0, 0, 0, some 0, 1000000 - 259201⟩

/-- A tracked call last seen one second inside the 3-day retention at
`now = 1000000`. -/
def vFresh : TrackedCall := ⟨recY "PREVU", "PREVU", 0, 0, 0, some 0, 1000000 - 259199⟩

/-! ### Basic facts about `update_vessel_timers` -/

theorem uvt_current_status (v : TrackedCall) (s : String) (t : ℚ) :
    (update_vessel_timers v s t).current_status = s := rfl

theorem uvt_last_updated (v : TrackedCall) (s : String) (t : ℚ) :
    (update_vessel_timers v s t).last_updated = some t := rfl

theorem uvt_last_seen (v : TrackedCall) (s : String) (t : ℚ) :
    (update_vessel_timers v s t).last_seen = t := rfl

theorem uvt_entry (v : TrackedCall) (s : String) (t : ℚ) :
    (update_vessel_timers v s t).entry = v.entry := by
  rcases h : v.last_updated with _ | lu
  · simp only [update_vessel_timers, h]
  · simp only [update_vessel_timers, h]
    split_ifs <;> rfl

theorem uvt_first_seen (v : TrackedCall) (s : String) (t : ℚ) :
    (update_vessel_timers v s t).first_seen = v.first_seen := by
  rcases h : v.last_updated with _ | lu
  · simp only [update_vessel_timers, h]
  · simp only [update_vessel_timers, h]
    split_ifs <;> rfl

theorem anch_not_berth (s : String) (h : s ∈ ANCHORAGE_STATUSES) :
    s ∉ BERTH_STATUSES := by
  simp [ANCHORAGE_STATUSES] at h
  subst h
  decide

theorem uvt_anchorage (v : TrackedCall) (s : String) (t : ℚ) :
    (update_vessel_timers v s t).anchorage_hours =
      v.anchorage_hours +
        (match v.last_updated with
         | some l =>
             if v.current_status ∈ ANCHORAGE_STATUSES then (t - l) / 3600 else 0
         | none => 0) := by
  rcases h : v.last_updated with _ | lu <;> simp only [update_vessel_timers, h]
  · simp
  · by_cases h1 : v.current_status ∈ ANCHORAGE_STATUSES
    · simp [h1]
    · by_cases h2 : v.current_status ∈ BERTH_STATUSES <;> simp [h1, h2]

theorem uvt_berth (v : TrackedCall) (s : String) (t : ℚ) :
    (update_vessel_timers v s t).berth_hours =
      v.berth_hours +
        (match v.last_updated with
         | some l =>
             if v.current_status ∈ BERTH_STATUSES then (t - l) / 3600 else 0
         | none => 0) := by
  rcases h : v.last_updated with _ | lu <;> simp only [update_vessel_timers, h]
  · simp
  · by_cases h1 : v.current_status ∈ ANCHORAGE_STATUSES
    · simp [h1, anch_not_berth _ h1]
    · by_cases h2 : v.current_status ∈ BERTH_STATUSES <;> simp [h1, h2]

/-- At zero elapsed time, re-observing the stored status is a no-op
provided the timestamps are already at `now`. -/
theorem uvt_eta (v : TrackedCall) (now : ℚ) (h2 : v.last_updated = some now)
    (h3 : v.last_seen = now) :
    update_vessel_timers v v.current_status now = v := by
  obtain ⟨e, cs, a, b, f, lu, ls⟩ := v
  simp only at h2 h3
  subst h2; subst h3
  simp only [update_vessel_timers]
  by_cases h1 : cs ∈ ANCHORAGE_STATUSES <;>
    by_cases hb : cs ∈ BERTH_STATUSES <;> simp [h1, hb]

/-! ### Association-list lemmas -/

theorem mem_of_alookup {β : Type} {k : String} {v : β} :
    ∀ {l : List (String × β)}, alookup k l = some v → (k, v) ∈ l := by
  intro l
  induction l with
  | nil => intro h; simp [alookup] at h
  | cons kv rest ih =>
    obtain ⟨k₁, v₁⟩ := kv
    intro h
    by_cases hk : k₁ = k
    · subst hk
      simp [alookup] at h
      subst h
      exact List.mem_cons_self _ _
    · simp [alookup, hk] at h
      exact List.mem_cons_of_mem _ (ih h)

theorem alookup_isSome_of_mem {β : Type} {k : String} {v : β} :
    ∀ {l : List (String × β)}, (k, v) ∈ l → (alookup k l).isSome := by
  intro l
  induction l with
  | nil => intro h; simp at h
  | cons kv rest ih =>
    obtain ⟨k₁, v₁⟩ := kv
    intro h
    by_cases hk : k₁ = k
    · simp [alookup, hk]
    · rcases List.mem_cons.1 h with h | h
      · exact absurd (congrArg Prod.fst h).symm hk
      · simpa [alookup, hk] using ih h

theorem alookup_eq_none_iff {β : Type} {k : String} :
    ∀ {l : List (String × β)}, alookup k l = none ↔ k ∉ l.map Prod.fst := by
  intro l
  induction l with
  | nil => simp [alookup]
  | cons kv rest ih =>
    obtain ⟨k₁, v₁⟩ := kv
    by_cases hk : k₁ = k
    · simp [alookup, hk]
    · simp [alookup, hk, ih, Ne.symm hk]

theorem alookup_of_mem_nodup {β : Type} {k : String} {v : β} :
    ∀ {l : List (String × β)}, (l.map Prod.fst).Nodup → (k, v) ∈ l →
      alookup k l = some v := by
  intro l
  induction l with
  | nil => intro _ h; simp at h
  | cons kv rest ih =>
    obtain ⟨k₁, v₁⟩ := kv
    intro hnd h
    rcases List.mem_cons.1 h with h | h
    · obtain ⟨h1, h2⟩ := Prod.ext_iff.1 h
      subst h1; subst h2
      simp [alookup]
    · have hk : k₁ ≠ k := by
        rintro rfl
        have : k₁ ∈ rest.map Prod.fst := List.mem_map.2 ⟨(k₁, v), h, rfl⟩
        exact (List.nodup_cons.1 hnd).1 this
      simp [alookup, hk]
      exact ih (List.nodup_cons.1 hnd).2 h

theorem alookup_append_some {β : Type} {k : String} {v : β}
    {l₁ l₂ : List (String × β)} (h : alookup k l₁ = some v) :
    alookup k (l₁ ++ l₂) = some v := by
  induction l₁ with
  | nil => simp [alookup] at h
  | cons kv rest ih =>
    obtain ⟨k₁, v₁⟩ := kv
    by_cases hk : k₁ = k
    · subst hk; simp [alookup] at h ⊢; exact h
    · simp [alookup, hk] at h ⊢; exact ih h

theorem alookup_append_isSome {β : Type} {k : String}
    {l₁ l₂ : List (String × β)} (h : (alookup k l₁).isSome) :
    (alookup k (l₁ ++ l₂)).isSome := by
  obtain ⟨v, hv⟩ := Option.isSome_iff_exists.1 h
  simp [alookup_append_some hv]

theorem alookup_append_self {β : Type} {k : String} {v : β}
    {l : List (String × β)} (h : alookup k l = none) :
    alookup k (l ++ [(k, v)]) = some v := by
  induction l with
  | nil => simp [alookup]
  | cons kv rest ih =>
    obtain ⟨k₁, v₁⟩ := kv
    by_cases hk : k₁ = k
    · subst hk; simp [alookup] at h
    · simp [alookup, hk] at h ⊢; exact ih h

theorem alookup_map_values {β γ : Type} (g : String × β → γ) (k : String) :
    ∀ (l : List (String × β)),
      alookup k (l.map (fun kv => (kv.1, g kv))) =
        (alookup k l).map (fun v => g (k, v)) := by
  intro l
  induction l with
  | nil => rfl
  | cons kv rest ih =>
    obtain ⟨k₁, v₁⟩ := kv
    by_cases hk : k₁ = k
    · subst hk; simp [alookup]
    · simp [alookup, hk, ih]

theorem alookup_filter_of_pred {β : Type} {p : String × β → Bool} {k : String}
    {v : β} :
    ∀ {l : List (String × β)}, alookup k l = some v → p (k, v) = true →
      alookup k (l.filter p) = some v := by
  intro l
  induction l with
  | nil => intro h _; simp [alookup] at h
  | cons kv rest ih =>
    obtain ⟨k₁, v₁⟩ := kv
    intro h hp
    by_cases hk : k₁ = k
    · subst hk
      simp [alookup] at h
      subst h
      simp [List.filter_cons, hp, alookup]
    · simp only [alookup, hk, if_false] at h
      cases hpa : p (k₁, v₁) <;>
        simp [List.filter_cons, hpa, alookup, hk, ih h hp]

/-! ### Facts about one update-loop iteration -/

theorem pae_of_live {live : List (String × LiveRec)} {k : String} {l : LiveRec}
    (now : ℚ) (v : TrackedCall) (h : alookup k live = some l)
    (hc : ¬(v.current_status = "A QUAI" ∧
        (l.status = "APPAREILLAGE" ∨ l.status = "TERMINE"))) :
    process_active_entry live now k v =
      ({ update_vessel_timers v l.status now with entry := l.e }, none, false) := by
  simp only [process_active_entry, h]
  rw [if_neg hc]

theorem pae_of_live_complete {live : List (String × LiveRec)} {k : String}
    {l : LiveRec} (now : ℚ) (v : TrackedCall) (h : alookup k live = some l)
    (h1 : v.current_status = "A QUAI")
    (h2 : l.status = "APPAREILLAGE" ∨ l.status = "TERMINE") :
    process_active_entry live now k v =
      ({ update_vessel_timers v l.status now with entry := l.e },
       some (make_completed (update_vessel_timers v l.status now) now), true) := by
  simp only [process_active_entry, h]
  rw [if_pos ⟨h1, h2⟩]

theorem pae_absent_tracked {live : List (String × LiveRec)} {k : String}
    (now : ℚ) (v : TrackedCall) (h : alookup k live = none)
    (hm : v.current_status ∈ ANCHORAGE_STATUSES ++ BERTH_STATUSES) :
    process_active_entry live now k v =
      (update_vessel_timers v v.current_status now, none, false) := by
  simp only [process_active_entry, h]
  rw [if_pos hm]

theorem pae_absent_other {live : List (String × LiveRec)} {k : String}
    (now : ℚ) (v : TrackedCall) (h : alookup k live = none)
    (hm : v.current_status ∉ ANCHORAGE_STATUSES ++ BERTH_STATUSES) :
    process_active_entry live now k v = (v, none, false) := by
  simp only [process_active_entry, h]
  rw [if_neg hm]

theorem pae_last_seen_of_live {live : List (String × LiveRec)} {k : String}
    {l : LiveRec} (now : ℚ) (v : TrackedCall) (h : alookup k live = some l) :
    (process_active_entry live now k v).1.last_seen = now := by
  by_cases hc : v.current_status = "A QUAI" ∧
      (l.status = "APPAREILLAGE" ∨ l.status = "TERMINE")
  · rw [pae_of_live_complete now v h hc.1 hc.2]
    rfl
  · rw [pae_of_live now v h hc]
    rfl

/-- Processing an entry whose fields already reflect this poll's live record
is a no-op: no accumulation, no completion, no removal. -/
theorem stable_of_canonical {live : List (String × LiveRec)} {k : String}
    {l : LiveRec} {now : ℚ} {v : TrackedCall} (h : alookup k live = some l)
    (h1 : v.current_status = l.status) (h2 : v.last_updated = some now)
    (h3 : v.last_seen = now) (h4 : v.entry = l.e) :
    process_active_entry live now k v = (v, none, false) := by
  have hc : ¬(v.current_status = "A QUAI" ∧
      (l.status = "APPAREILLAGE" ∨ l.status = "TERMINE")) := by
    rintro ⟨ha, hb | hb⟩ <;> rw [h1, hb] at ha <;> exact absurd ha (by decide)
  rw [pae_of_live now v h hc]
  have heq := uvt_eta v now h2 h3
  rw [h1] at heq
  rw [heq, ← h4]

theorem stable_absent {live : List (String × LiveRec)} {k : String} {now : ℚ}
    {v : TrackedCall} (h : alookup k live = none) (h2 : v.last_updated = some now)
    (h3 : v.last_seen = now) :
    process_active_entry live now k v = (v, none, false) := by
  by_cases hm : v.current_status ∈ ANCHORAGE_STATUSES ++ BERTH_STATUSES
  · rw [pae_absent_tracked now v h hm, uvt_eta v now h2 h3]
  · exact pae_absent_other now v h hm

/-- The value produced by one update-loop iteration is itself stable:
re-processing it at the same `now` with the same live feed changes nothing. -/
theorem stable_processed (live : List (String × LiveRec)) (now : ℚ)
    (k : String) (v : TrackedCall) :
    process_active_entry live now k ((process_active_entry live now k v).1) =
      ((process_active_entry live now k v).1, none, false) := by
  cases hl : alookup k live with
  | some l =>
      have hv1 : (process_active_entry live now k v).1 =
          { update_vessel_timers v l.status now with entry := l.e } := by
        by_cases hc : v.current_status = "A QUAI" ∧
            (l.status = "APPAREILLAGE" ∨ l.status = "TERMINE")
        · rw [pae_of_live_complete now v hl hc.1 hc.2]
        · rw [pae_of_live now v hl hc]
      rw [hv1]
      exact stable_of_canonical hl rfl rfl rfl rfl
  | none =>
      by_cases hm : v.current_status ∈ ANCHORAGE_STATUSES ++ BERTH_STATUSES
      · rw [pae_absent_tracked now v hl hm]
        exact stable_absent hl rfl rfl
      · rw [pae_absent_other now v hl hm]
        exact pae_absent_other now v hl hm

/-- A freshly registered vessel is stable under re-processing at the same
`now`. -/
theorem stable_fresh {live : List (String × LiveRec)} {k : String}
    {l : LiveRec} {now : ℚ} (h : alookup k live = some l) :
    process_active_entry live now k ⟨l.e, l.status, 0, 0, now, some now, now⟩ =
      (⟨l.e, l.status, 0, 0, now, some now, now⟩, none, false) :=
  stable_of_canonical h rfl rfl rfl rfl

/-! ### New-vessel loop lemmas -/

theorem nvl_mem {now : ℚ} :
    ∀ (live : List (String × LiveRec))
      (acc : List (String × TrackedCall) × List (String × List RawRecord))
      (pair : String × TrackedCall),
      pair ∈ (new_vessel_loop now acc live).1 →
      pair ∈ acc.1 ∨ ∃ kl ∈ live,
        pair = (kl.1, ⟨kl.2.e, kl.2.status, 0, 0, now, some now, now⟩) := by
  intro live
  induction live with
  | nil => intro acc pair hp; exact Or.inl hp
  | cons kl rest ih =>
    intro acc pair hp
    obtain ⟨active, alerts⟩ := acc
    obtain ⟨v_id, l⟩ := kl
    simp only [new_vessel_loop] at hp
    split_ifs at hp with hs hz hprevu
    · rcases ih _ _ hp with h | ⟨kl₁, hk₁, hk₂⟩
      · exact Or.inl h
      · exact Or.inr ⟨kl₁, List.mem_cons_of_mem _ hk₁, hk₂⟩
    · rcases ih _ _ hp with h | ⟨kl₁, hk₁, hk₂⟩
      · exact Or.inl h
      · exact Or.inr ⟨kl₁, List.mem_cons_of_mem _ hk₁, hk₂⟩
    · rcases ih _ _ hp with h | ⟨kl₁, hk₁, hk₂⟩
      · rcases List.mem_append.1 h with h | h
        · exact Or.inl h
        · exact Or.inr ⟨(v_id, l), List.mem_cons_self _ _, by simpa using h⟩
      · exact Or.inr ⟨kl₁, List.mem_cons_of_mem _ hk₁, hk₂⟩
    · rcases ih _ _ hp with h | ⟨kl₁, hk₁, hk₂⟩
      · rcases List.mem_append.1 h with h | h
        · exact Or.inl h
        · exact Or.inr ⟨(v_id, l), List.mem_cons_self _ _, by simpa using h⟩
      · exact Or.inr ⟨kl₁, List.mem_cons_of_mem _ hk₁, hk₂⟩

theorem nvl_alookup_some {now : ℚ} {k : String} {v : TrackedCall} :
    ∀ (live : List (String × LiveRec))
      (acc : List (String × TrackedCall) × List (String × List RawRecord)),
      alookup k acc.1 = some v →
      alookup k (new_vessel_loop now acc live).1 = some v := by
  intro live
  induction live with
  | nil => intro acc h; exact h
  | cons kl rest ih =>
    intro acc h
    obtain ⟨active, alerts⟩ := acc
    obtain ⟨v_id, l⟩ := kl
    simp only [new_vessel_loop]
    split_ifs with hs hz hprevu
    · exact ih _ h
    · exact ih _ h
    · exact ih _ (alookup_append_some h)
    · exact ih _ (alookup_append_some h)

theorem nvl_isSome_mono {now : ℚ} {k : String}
    {live : List (String × LiveRec)}
    {acc : List (String × TrackedCall) × List (String × List RawRecord)}
    (h : (alookup k acc.1).isSome) :
    (alookup k (new_vessel_loop now acc live).1).isSome := by
  obtain ⟨v, hv⟩ := Option.isSome_iff_exists.1 h
  simp [nvl_alookup_some live acc hv]

/-- If every PREVU identity of the feed is already in the store, the
new-vessel loop adds no alerts. -/
theorem nvl_no_alerts {now : ℚ} :
    ∀ (live : List (String × LiveRec))
      (acc : List (String × TrackedCall) × List (String × List RawRecord)),
      (∀ kl ∈ live, kl.2.status = "PREVU" → (alookup kl.1 acc.1).isSome) →
      (new_vessel_loop now acc live).2 = acc.2 := by
  intro live
  induction live with
  | nil => intro acc _; rfl
  | cons kl rest ih =>
    intro acc hcond
    obtain ⟨active, alerts⟩ := acc
    obtain ⟨v_id, l⟩ := kl
    simp only [new_vessel_loop]
    split_ifs with hs hz hprevu
    · exact ih _ fun kl₁ h₁ h₂ => hcond kl₁ (List.mem_cons_of_mem _ h₁) h₂
    · exact ih _ fun kl₁ h₁ h₂ => hcond kl₁ (List.mem_cons_of_mem _ h₁) h₂
    · exact absurd (hcond (v_id, l) (List.mem_cons_self _ _) hprevu) hs
    · exact ih _ fun kl₁ h₁ h₂ =>
        alookup_append_isSome (hcond kl₁ (List.mem_cons_of_mem _ h₁) h₂)

/-- A PREVU identity of the feed is in the store after the new-vessel loop. -/
theorem nvl_prevu_isSome {now : ℚ} {k : String} {l : LiveRec} :
    ∀ (live : List (String × LiveRec))
      (acc : List (String × TrackedCall) × List (String × List RawRecord)),
      (k, l) ∈ live → l.status = "PREVU" →
      (alookup k (new_vessel_loop now acc live).1).isSome := by
  intro live
  induction live with
  | nil => intro acc h; simp at h
  | cons kl rest ih =>
    intro acc hmem hprevu
    obtain ⟨active, alerts⟩ := acc
    obtain ⟨v_id, l₀⟩ := kl
    rcases List.mem_cons.1 hmem with h | h
    · obtain ⟨h1, h2⟩ := Prod.ext_iff.1 h
      simp only at h1 h2
      subst h1; subst h2
      simp only [new_vessel_loop]
      have hc2 : ¬(active.length = 0 ∧ l.status ≠ "PREVU") := by simp [hprevu]
      cases hh : alookup k active with
      | some w =>
        simp only [Option.isSome_some, if_true]
        exact nvl_isSome_mono (by simp [hh])
      | none =>
        simp only [Option.isSome_none]
        rw [if_neg (by simp), if_neg hc2, if_pos hprevu]
        exact nvl_isSome_mono (by simp [alookup_append_self hh])
    · simp only [new_vessel_loop]
      split_ifs <;> exact ih _ h hprevu

/-! ### `build_live_vessels` lemmas -/

theorem upsert_mem {β : Type} {pair : String × β} :
    ∀ {m : List (String × β)} {k : String} {v : β},
      pair ∈ upsert m k v → pair = (k, v) ∨ pair ∈ m := by
  intro m
  induction m with
  | nil =>
    intro k v h
    simp only [upsert, List.mem_singleton] at h
    exact Or.inl h
  | cons kv rest ih =>
    intro k v h
    obtain ⟨k₁, v₁⟩ := kv
    by_cases hk : k₁ = k
    · simp only [upsert, if_pos hk] at h
      rcases List.mem_cons.1 h with h | h
      · exact Or.inl h
      · exact Or.inr (List.mem_cons_of_mem _ h)
    · simp only [upsert, if_neg hk] at h
      rcases List.mem_cons.1 h with h | h
      · exact Or.inr (h ▸ List.mem_cons_self _ _)
      · rcases ih h with h | h
        · exact Or.inl h
        · exact Or.inr (List.mem_cons_of_mem _ h)

theorem upsert_keys_sub {β : Type} {a k : String} {v : β} :
    ∀ {m : List (String × β)},
      a ∈ (upsert m k v).map Prod.fst → a ∈ m.map Prod.fst ∨ a = k := by
  intro m h
  obtain ⟨pair, hp, hfst⟩ := List.mem_map.1 h
  rcases upsert_mem hp with h | h
  · exact Or.inr (hfst ▸ h ▸ rfl)
  · exact Or.inl (List.mem_map.2 ⟨pair, h, hfst⟩)

theorem upsert_nodup {β : Type} {k : String} {v : β} :
    ∀ {m : List (String × β)},
      (m.map Prod.fst).Nodup → ((upsert m k v).map Prod.fst).Nodup := by
  intro m
  induction m with
  | nil => intro _; simp [upsert]
  | cons kv rest ih =>
    intro hnd
    obtain ⟨k₁, v₁⟩ := kv
    obtain ⟨hk₁, hrest⟩ := List.nodup_cons.1 hnd
    by_cases hk : k₁ = k
    · subst hk
      simpa [upsert] using List.nodup_cons.2 ⟨hk₁, hrest⟩
    · simp only [upsert, if_neg hk, List.map_cons]
      refine List.nodup_cons.2 ⟨?_, ih hrest⟩
      intro hmem
      rcases upsert_keys_sub hmem with h | h
      · exact hk₁ h
      · exact hk h

theorem build_live_nodup (all_data : List RawRecord) :
    ((build_live_vessels all_data).map Prod.fst).Nodup := by
  have aux : ∀ (d : List RawRecord) (m : List (String × LiveRec)),
      (m.map Prod.fst).Nodup →
      ((d.foldl (fun m e =>
          if portCodeStr e ∈ ALLOWED_PORTS then
            upsert m (vessel_id e)
              ⟨e, normalize_status (e.sITUATIONField.getD "")⟩
          else m) m).map Prod.fst).Nodup := by
    intro d
    induction d with
    | nil => intro m hm; exact hm
    | cons e rest ih =>
      intro m hm
      simp only [List.foldl_cons]
      by_cases hp : portCodeStr e ∈ ALLOWED_PORTS
      · rw [if_pos hp]; exact ih _ (upsert_nodup hm)
      · rw [if_neg hp]; exact ih _ hm
  exact aux all_data [] (by simp)

theorem build_live_mem {pair : String × LiveRec} {all_data : List RawRecord}
    (h : pair ∈ build_live_vessels all_data) :
    ∃ e ∈ all_data,
      pair = (vessel_id e, ⟨e, normalize_status (e.sITUATIONField.getD "")⟩) := by
  have aux : ∀ (d : List RawRecord) (m : List (String × LiveRec)),
      pair ∈ d.foldl (fun m e =>
          if portCodeStr e ∈ ALLOWED_PORTS then
            upsert m (vessel_id e)
              ⟨e, normalize_status (e.sITUATIONField.getD "")⟩
          else m) m →
      pair ∈ m ∨ ∃ e ∈ d,
        pair = (vessel_id e, ⟨e, normalize_status (e.sITUATIONField.getD "")⟩) := by
    intro d
    induction d with
    | nil => intro m hm; exact Or.inl hm
    | cons e rest ih =>
      intro m hm
      simp only [List.foldl_cons] at hm
      by_cases hp : portCodeStr e ∈ ALLOWED_PORTS
      · rw [if_pos hp] at hm
        rcases ih _ hm with h₁ | ⟨e₁, he₁, hp₁⟩
        · rcases upsert_mem h₁ with h₂ | h₂
          · exact Or.inr ⟨e, List.mem_cons_self _ _, h₂⟩
          · exact Or.inl h₂
        · exact Or.inr ⟨e₁, List.mem_cons_of_mem _ he₁, hp₁⟩
      · rw [if_neg hp] at hm
        rcases ih _ hm with h₁ | ⟨e₁, he₁, hp₁⟩
        · exact Or.inl h₁
        · exact Or.inr ⟨e₁, List.mem_cons_of_mem _ he₁, hp₁⟩
  rcases aux all_data [] h with h₁ | h₁
  · simp at h₁
  · exact h₁

/-! ### History truncation lemmas -/

theorem pyLast1000_length (l : List CompletedCall) :
    (pyLast1000 l).length ≤ 1000 := by
  simp only [pyLast1000, List.length_drop]
  omega

theorem pyLast1000_of_le {l : List CompletedCall} (h : l.length ≤ 1000) :
    pyLast1000 l = l := by
  simp only [pyLast1000]
  have : l.length - 1000 = 0 := by omega
  rw [this, List.drop_zero]

/-! ### Run-level lemmas -/

theorem process_run_active_def (a : List (String × TrackedCall))
    (h : List CompletedCall) (live : List (String × LiveRec)) (now : ℚ) :
    (process_run a h live now).active =
      cleanup_active
        (new_vessel_loop now
          (((run_update_loop a live now).1).filter
            (fun kv => decide (kv.1 ∉ (run_update_loop a live now).2.2)), [])
          live).1 now := rfl

theorem process_run_history_def (a : List (String × TrackedCall))
    (h : List CompletedCall) (live : List (String × LiveRec)) (now : ℚ) :
    (process_run a h live now).history =
      pyLast1000 (h ++ (run_update_loop a live now).2.1) := by
  simp only [process_run]

theorem process_run_alerts_def (a : List (String × TrackedCall))
    (h : List CompletedCall) (live : List (String × LiveRec)) (now : ℚ) :
    (process_run a h live now).alerts =
      (new_vessel_loop now
        (((run_update_loop a live now).1).filter
          (fun kv => decide (kv.1 ∉ (run_update_loop a live now).2.2)), [])
        live).2 := rfl

theorem run_update_fst (a : List (String × TrackedCall))
    (live : List (String × LiveRec)) (now : ℚ) :
    (run_update_loop a live now).1 =
      a.map (fun kv => (kv.1, (process_active_entry live now kv.1 kv.2).1)) := rfl

/-- Every pair of the post-run store is either a processed pre-run pair or
a freshly registered live identity. -/
theorem process_run_active_mem {a : List (String × TrackedCall)}
    {h : List CompletedCall} {live : List (String × LiveRec)} {now : ℚ}
    {pair : String × TrackedCall}
    (hp : pair ∈ (process_run a h live now).active) :
    (∃ kv ∈ a, pair = (kv.1, (process_active_entry live now kv.1 kv.2).1)) ∨
    (∃ kl ∈ live,
      pair = (kl.1, ⟨kl.2.e, kl.2.status, 0, 0, now, some now, now⟩)) := by
  rw [process_run_active_def] at hp
  have hp1 := (List.mem_filter.1 hp).1
  rcases nvl_mem live _ pair hp1 with h1 | h1
  · have hp2 := (List.mem_filter.1 h1).1
    rw [run_update_fst] at hp2
    obtain ⟨kv, hkv, heq⟩ := List.mem_map.1 hp2
    exact Or.inl ⟨kv, hkv, heq.symm⟩
  · exact Or.inr h1

theorem nodup_filter_keys {β : Type} {l : List (String × β)}
    (p : String × β → Bool) (h : (l.map Prod.fst).Nodup) :
    ((l.filter p).map Prod.fst).Nodup :=
  h.sublist ((List.filter_sublist l).map Prod.fst)

theorem nvl_nodup {now : ℚ} :
    ∀ (live : List (String × LiveRec))
      (acc : List (String × TrackedCall) × List (String × List RawRecord)),
      (acc.1.map Prod.fst).Nodup →
      (((new_vessel_loop now acc live).1).map Prod.fst).Nodup := by
  intro live
  induction live with
  | nil => intro acc hnd; exact hnd
  | cons kl rest ih =>
    intro acc hnd
    obtain ⟨active, alerts⟩ := acc
    obtain ⟨v_id, l⟩ := kl
    simp only [new_vessel_loop]
    cases hh : alookup v_id active with
    | some w =>
      simp only [Option.isSome_some, if_true]
      exact ih _ hnd
    | none =>
      have hnot : v_id ∉ active.map Prod.fst := alookup_eq_none_iff.1 hh
      have hnd2 : ((active ++
          [(v_id, (⟨l.e, l.status, 0, 0, now, some now, now⟩ : TrackedCall))]).map
            Prod.fst).Nodup := by
        simp [List.nodup_append, hnd, hnot]
      simp only [Option.isSome_none]
      rw [if_neg (by simp)]
      split_ifs
      · exact ih _ hnd
      · exact ih _ hnd2
      · exact ih _ hnd2

theorem nodup_process_run {a : List (String × TrackedCall)}
    {h : List CompletedCall} {live : List (String × LiveRec)} {now : ℚ}
    (hnd : (a.map Prod.fst).Nodup) :
    (((process_run a h live now).active).map Prod.fst).Nodup := by
  rw [process_run_active_def]
  apply nodup_filter_keys
  apply nvl_nodup
  apply nodup_filter_keys
  rw [run_update_fst, List.map_map]
  exact hnd

/-- C9 core: a tracked call in anchorage or berth status that is absent
from the live feed is re-timed, not evicted: after the run it is still in
the store, updated by `update_vessel_timers` at its own status. -/
theorem absent_tracked_run {a : List (String × TrackedCall)}
    {h : List CompletedCall} {live : List (String × LiveRec)} {now : ℚ}
    {k : String} {v : TrackedCall} (hnd : (a.map Prod.fst).Nodup)
    (hv : alookup k a = some v) (hl : alookup k live = none)
    (hm : v.current_status ∈ ANCHORAGE_STATUSES ++ BERTH_STATUSES) :
    alookup k (process_run a h live now).active =
      some (update_vessel_timers v v.current_status now) := by
  rw [process_run_active_def]
  have h1 : alookup k (run_update_loop a live now).1 =
      some ((process_active_entry live now k v).1) := by
    rw [run_update_fst,
      alookup_map_values (fun kv => (process_active_entry live now kv.1 kv.2).1) k a,
      hv]
    rfl
  have hval : (process_active_entry live now k v).1 =
      update_vessel_timers v v.current_status now := by
    rw [pae_absent_tracked now v hl hm]
  have hkr : k ∉ (run_update_loop a live now).2.2 := by
    intro hk
    obtain ⟨kv, hkvf, hfst⟩ := List.mem_map.1 hk
    obtain ⟨hkva, hflag⟩ := List.mem_filter.1 hkvf
    obtain ⟨k₁, v₁⟩ := kv
    simp only at hfst
    subst hfst
    have hvv : alookup k₁ a = some v₁ := alookup_of_mem_nodup hnd hkva
    rw [hv] at hvv
    injection hvv with hvv
    dsimp only at hflag
    rw [← hvv, pae_absent_tracked now v hl hm] at hflag
    simp at hflag
  have h2 : alookup k ((run_update_loop a live now).1.filter
      (fun kv => decide (kv.1 ∉ (run_update_loop a live now).2.2))) =
      some (update_vessel_timers v v.current_status now) := by
    apply alookup_filter_of_pred
    · rw [h1, hval]
    · simp [hkr]
  have h3 := @nvl_alookup_some now k (update_vessel_timers v v.current_status now)
    live
    (((run_update_loop a live now).1).filter
      (fun kv => decide (kv.1 ∉ (run_update_loop a live now).2.2)),
     ([] : List (String × List RawRecord))) h2
  apply alookup_filter_of_pred h3
  simp only [decide_eq_true_eq, uvt_last_seen]
  exact sub_lt_self now (by norm_num)

/-- A PREVU identity of the feed is in the store after a run (so it can
never be re-alerted by an immediately repeated identical run). -/
theorem prevu_in_run {a : List (String × TrackedCall)}
    {h : List CompletedCall} {live : List (String × LiveRec)} {now : ℚ}
    {k : String} {l : LiveRec} (hnd_live : (live.map Prod.fst).Nodup)
    (hmem : (k, l) ∈ live) (hprevu : l.status = "PREVU") :
    (alookup k (process_run a h live now).active).isSome := by
  rw [process_run_active_def]
  have h1 : (alookup k (new_vessel_loop now
      (((run_update_loop a live now).1).filter
        (fun kv => decide (kv.1 ∉ (run_update_loop a live now).2.2)), [])
      live).1).isSome :=
    nvl_prevu_isSome live _ hmem hprevu
  obtain ⟨v₀, hv₀⟩ := Option.isSome_iff_exists.1 h1
  have hmem₀ := mem_of_alookup hv₀
  have hlast : v₀.last_seen = now := by
    rcases nvl_mem live _ _ hmem₀ with h2 | ⟨kl₁, hk₁, hk₂⟩
    · have h3 := (List.mem_filter.1 h2).1
      rw [run_update_fst] at h3
      obtain ⟨kv, hkv, heq⟩ := List.mem_map.1 h3
      obtain ⟨he1, he2⟩ := Prod.ext_iff.1 heq
      simp only at he1 he2
      have hll : alookup k live = some l := alookup_of_mem_nodup hnd_live hmem
      rw [← he2]
      exact pae_last_seen_of_live now kv.2 (he1 ▸ hll)
    · obtain ⟨hf1, hf2⟩ := Prod.ext_iff.1 hk₂
      simp only at hf2
      rw [hf2]
  have h4 := @alookup_filter_of_pred TrackedCall
    (fun kv => decide (kv.2.last_seen > now - 259200)) k v₀ _ hv₀
    (by
      simp only [decide_eq_true_eq]
      show now - 259200 < v₀.last_seen
      rw [hlast]
      exact sub_lt_self now (by norm_num))
  have h5 : alookup k (cleanup_active (new_vessel_loop now
      (((run_update_loop a live now).1).filter
        (fun kv => decide (kv.1 ∉ (run_update_loop a live now).2.2)), [])
      live).1 now) = some v₀ := h4
  rw [h5]
  rfl

/-- C1 core: folding `update_vessel_timers` over any observation sequence
adds exactly the anchorage- and berth-attributed elapsed-hour sums to the
accumulators. -/
theorem timers_foldl (obs : List (String × ℚ)) :
    ∀ v : TrackedCall,
      ((obs.foldl (fun w st => update_vessel_timers w st.1 st.2) v).anchorage_hours
          = v.anchorage_hours + anchorage_sum v.current_status v.last_updated obs) ∧
      ((obs.foldl (fun w st => update_vessel_timers w st.1 st.2) v).berth_hours
          = v.berth_hours + berth_sum v.current_status v.last_updated obs) := by
  induction obs with
  | nil => intro v; simp [anchorage_sum, berth_sum]
  | cons st rest ih =>
    intro v
    obtain ⟨s, t⟩ := st
    have hfold := ih (update_vessel_timers v s t)
    constructor
    · rw [List.foldl_cons, hfold.1, uvt_anchorage, uvt_current_status,
        uvt_last_updated]
      simp only [anchorage_sum]
      rw [add_assoc]
    · rw [List.foldl_cons, hfold.2, uvt_berth, uvt_current_status,
        uvt_last_updated]
      simp only [berth_sum]
      rw [add_assoc]

/-! ### Second-run and first-run helper lemmas -/

theorem list_map_self {α : Type} {l : List α} {f : α → α}
    (h : ∀ x ∈ l, f x = x) : l.map f = l := by
  induction l with
  | nil => rfl
  | cons x rest ih =>
    rw [List.map_cons, h x (List.mem_cons_self x rest),
      ih fun b hb => h b (List.mem_cons_of_mem _ hb)]

theorem string_append_left_cancel {a b c : String} (h : a ++ b = a ++ c) :
    b = c := by
  have hd := congrArg String.data h
  simp only [String.data_append] at hd
  exact String.ext (List.append_cancel_left hd)

/-- Every pair of a run's resulting store is stable: re-processing it with
the same live feed at the same `now` is a no-op. -/
theorem run_active_stable {a : List (String × TrackedCall)}
    {h : List CompletedCall} {live : List (String × LiveRec)} {now : ℚ}
    (hnd_live : (live.map Prod.fst).Nodup) :
    ∀ pair ∈ (process_run a h live now).active,
      process_active_entry live now pair.1 pair.2 = (pair.2, none, false) := by
  intro pair hp
  rcases process_run_active_mem hp with ⟨kv, hkv, heq⟩ | ⟨kl, hkl, heq⟩
  · rw [heq]
    exact stable_processed live now kv.1 kv.2
  · rw [heq]
    exact stable_fresh (alookup_of_mem_nodup hnd_live hkl)

/-- If all entries are stable, the update loop is the identity and produces
no history additions and no removals. -/
theorem run_update_stable {A : List (String × TrackedCall)}
    {live : List (String × LiveRec)} {now : ℚ}
    (hstab : ∀ pair ∈ A,
      process_active_entry live now pair.1 pair.2 = (pair.2, none, false)) :
    run_update_loop A live now = (A, [], []) := by
  have h1 : A.map (fun kv => (kv.1, (process_active_entry live now kv.1 kv.2).1)) = A := by
    apply list_map_self
    intro kv hkv
    rw [hstab kv hkv]
  have h2 : A.filterMap (fun kv => (process_active_entry live now kv.1 kv.2).2.1) = [] := by
    rw [List.filterMap_eq_nil]
    intro kv hkv
    rw [hstab kv hkv]
  have h3 : A.filter (fun kv => (process_active_entry live now kv.1 kv.2).2.2) = [] := by
    rw [List.filter_eq_nil]
    intro kv hkv
    rw [hstab kv hkv]
    simp
  show (A.map _, A.filterMap _, (A.filter _).map Prod.fst) = (A, [], [])
  rw [h1, h2, h3, List.map_nil]

/-- A run whose update loop is the identity reduces to the new-vessel loop
plus cleanup, with the history untouched apart from truncation. -/
theorem process_run_of_update_id {A : List (String × TrackedCall)}
    {h : List CompletedCall} {live : List (String × LiveRec)} {now : ℚ}
    (hupd : run_update_loop A live now = (A, [], [])) :
    process_run A h live now =
      ⟨cleanup_active (new_vessel_loop now (A, []) live).1 now,
       pyLast1000 h,
       (new_vessel_loop now (A, []) live).2⟩ := by
  unfold process_run
  rw [hupd]
  have hfa : A.filter (fun kv => decide (kv.1 ∉ ([] : List String))) = A :=
    List.filter_eq_self.2 (by intro kv _; simp)
  dsimp only
  rw [hfa, List.append_nil]

/-- With an empty store and a feed containing no PREVU status, the
new-vessel loop registers nothing. -/
theorem nvl_all_skip {now : ℚ} :
    ∀ (live : List (String × LiveRec)) (alerts : List (String × List RawRecord)),
      (∀ kl ∈ live, kl.2.status ≠ "PREVU") →
      new_vessel_loop now ([], alerts) live = ([], alerts) := by
  intro live
  induction live with
  | nil => intro alerts _; rfl
  | cons kl rest ih =>
    intro alerts hnp
    obtain ⟨v_id, l⟩ := kl
    simp only [new_vessel_loop]
    have hnone : (alookup v_id ([] : List (String × TrackedCall))).isSome = false :=
      rfl
    rw [if_neg (by simp [hnone])]
    rw [if_pos ⟨rfl, hnp (v_id, l) (List.mem_cons_self _ _)⟩]
    exact ih _ fun kl₁ h₁ => hnp kl₁ (List.mem_cons_of_mem _ h₁)

/-! ### Claim theorems -/

set_option maxRecDepth 100000

/-- Claim C1 (amended): across any sequence of polls the accumulators equal
the exact sums of elapsed hours attributed to the ANCHORED (EN RADE) and
BERTHED (A QUAI) stored statuses; the CompletedCall records those
accumulators rounded to one decimal place (not merely within floating-point
tolerance); in particular the Scenario B pipeline
EXPECTED(0) → ANCHORED(0) → BERTHED(10h) → DEPARTED(34h) yields a history
record with anchorage_hours = 10 and berth_hours = 24 exactly. -/
theorem C1_spec :
    (∀ (v : TrackedCall) (obs : List (String × ℚ)),
      ((obs.foldl (fun w st => update_vessel_timers w st.1 st.2) v).anchorage_hours
          = v.anchorage_hours + anchorage_sum v.current_status v.last_updated obs) ∧
      ((obs.foldl (fun w st => update_vessel_timers w st.1 st.2) v).berth_hours
          = v.berth_hours + berth_sum v.current_status v.last_updated obs)) ∧
    (∀ (stored : TrackedCall) (now : ℚ),
      (make_completed stored now).anchorage_hours = round1 stored.anchorage_hours ∧
      (make_completed stored now).berth_hours = round1 stored.berth_hours) ∧
    ((process_feed
        (process_feed
          (process_feed
            (process_feed [] [] [recX "PREVU"] 0).active
            (process_feed [] [] [recX "PREVU"] 0).history [recX "EN RADE"] 0).active
          (process_feed
            (process_feed [] [] [recX "PREVU"] 0).active
            (process_feed [] [] [recX "PREVU"] 0).history [recX "EN RADE"] 0).history
          [recX "A QUAI"] 36000).active
        (process_feed
          (process_feed
            (process_feed [] [] [recX "PREVU"] 0).active
            (process_feed [] [] [recX "PREVU"] 0).history [recX "EN RADE"] 0).active
          (process_feed
            (process_feed [] [] [recX "PREVU"] 0).active
            (process_feed [] [] [recX "PREVU"] 0).history [recX "EN RADE"] 0).history
          [recX "A QUAI"] 36000).history
        [recX "APPAREILLAGE"] 122400).history.map
      (fun c => (c.anchorage_hours, c.berth_hours)) = [(10, 24)]) :=
  ⟨fun v obs => timers_foldl obs v, fun _ _ => ⟨rfl, rfl⟩,
   by with_unfolding_all decide⟩

/-- Claim C1 counterexample: with ANCHORED and BERTHED phases of 144 s each
(0.04 h), the CompletedCall records anchorage_hours = 0 and berth_hours = 0
while the exact elapsed sums are 1/25 h: the recorded values differ from the
sums by 0.04 h, far beyond floating-point tolerance (the code rounds to one
decimal place). -/
theorem C1_counterexample :
    ((process_feed
        (process_feed
          (process_feed
            (process_feed [] [] [recX "PREVU"] 0).active
            (process_feed [] [] [recX "PREVU"] 0).history [recX "EN RADE"] 0).active
          (process_feed
            (process_feed [] [] [recX "PREVU"] 0).active
            (process_feed [] [] [recX "PREVU"] 0).history [recX "EN RADE"] 0).history
          [recX "A QUAI"] 144).active
        (process_feed
          (process_feed
            (process_feed [] [] [recX "PREVU"] 0).active
            (process_feed [] [] [recX "PREVU"] 0).history [recX "EN RADE"] 0).active
          (process_feed
            (process_feed [] [] [recX "PREVU"] 0).active
            (process_feed [] [] [recX "PREVU"] 0).history [recX "EN RADE"] 0).history
          [recX "A QUAI"] 144).history
        [recX "APPAREILLAGE"] 288).history.map
      (fun c => (c.anchorage_hours, c.berth_hours)) = [(0, 0)]) ∧
    ((144 : ℚ) - 0) / 3600 = 1 / 25 ∧ ((1 : ℚ) / 25 ≠ 0) := by
  with_unfolding_all decide

/-- Claim C5 (amended): `normalize_status` is total; empty input yields
UNKNOWN; but a non-empty unrecognized raw status is returned as-is
(stripped and upper-cased), not UNKNOWN. -/
theorem C5_spec :
    normalize_status "" = "UNKNOWN" ∧
    ∀ raw : String, raw ≠ "" →
      pyUpper (pyStrip raw) ∉ LOADING_STATUSES →
      pyUpper (pyStrip raw) ∉ COMPLETED_STATUSES →
      normalize_status raw = pyUpper (pyStrip raw) := by
  refine ⟨rfl, ?_⟩
  intro raw h0 h1 h2
  simp only [normalize_status, if_neg h0]
  rw [if_neg h1, if_neg h2, ite_self]

/-- Claim C5 witness: "FOO" is unrecognized and non-empty, so the theorem
applies and the normalizer returns it as-is. -/
theorem C5_witness : normalize_status "FOO" = pyUpper (pyStrip "FOO") :=
  C5_spec.2 "FOO" (by decide) (by decide) (by decide)

/-- Claim C5 counterexample: the unrecognized raw status "FOO" is returned
as "FOO", not as the claimed UNKNOWN. -/
theorem C5_counterexample :
    normalize_status "FOO" = "FOO" ∧ "FOO" ≠ "UNKNOWN" := by
  with_unfolding_all decide

/-- Claim C3 (amended): identity resolution is deterministic over (vessel
identifier, call identifier) alone: identical pairs give the same identity
regardless of port code; with identical vessel identifier, present and
differing call identifiers give different identities; but records differing
only in port code resolve to the SAME identity — the port code is not part
of the key. -/
theorem C3_spec :
    (∀ r₁ r₂ : RawRecord,
      r₁.nUMERO_LLOYDField = r₂.nUMERO_LLOYDField →
      r₁.nUMERO_ESCALEField = r₂.nUMERO_ESCALEField →
      vessel_id r₁ = vessel_id r₂) ∧
    (∀ (r₁ r₂ : RawRecord) (c₁ c₂ : String),
      r₁.nUMERO_LLOYDField = r₂.nUMERO_LLOYDField →
      r₁.nUMERO_ESCALEField = some c₁ → r₂.nUMERO_ESCALEField = some c₂ →
      c₁ ≠ c₂ → vessel_id r₁ ≠ vessel_id r₂) ∧
    (∀ r₁ r₂ : RawRecord,
      r₁.nUMERO_LLOYDField = r₂.nUMERO_LLOYDField →
      r₁.nUMERO_ESCALEField = r₂.nUMERO_ESCALEField →
      r₁.cODE_SOCIETEField ≠ r₂.cODE_SOCIETEField →
      vessel_id r₁ = vessel_id r₂) := by
  refine ⟨?_, ?_, ?_⟩
  · intro r₁ r₂ h1 h2
    simp [vessel_id, h1, h2]
  · intro r₁ r₂ c₁ c₂ h1 h2 h3 hne heq
    apply hne
    rw [vessel_id, vessel_id, h1, h2, h3] at heq
    exact string_append_left_cancel heq
  · intro r₁ r₂ h1 h2 _
    simp [vessel_id, h1, h2]

/-- Claim C3 witness: two concrete records identical except for the port
code (16 vs 17) resolve, by the theorem, to the same identity. -/
theorem C3_witness :
    vessel_id ⟨some "111", some "E1", some "16", some "PREVU", some "X", none⟩ =
      vessel_id ⟨some "111", some "E1", some "17", some "PREVU", some "X", none⟩ :=
  C3_spec.2.2
    ⟨some "111", some "E1", some "16", some "PREVU", some "X", none⟩
    ⟨some "111", some "E1", some "17", some "PREVU", some "X", none⟩
    rfl rfl (by decide)

/-- Claim C3 counterexample: two raw records whose triples differ only in
port code resolve to the SAME identity, contradicting the claimed
injectivity in the port component. -/
theorem C3_counterexample :
    vessel_id ⟨some "111", some "E1", some "16", some "PREVU", some "X", none⟩ =
      vessel_id ⟨some "111", some "E1", some "17", some "PREVU", some "X", none⟩ ∧
    (⟨some "111", some "E1", some "16", some "PREVU", some "X", none⟩ :
        RawRecord).cODE_SOCIETEField ≠
      (⟨some "111", some "E1", some "17", some "PREVU", some "X", none⟩ :
        RawRecord).cODE_SOCIETEField := by
  with_unfolding_all decide

/-- Claim C7 (confirmed): the 3-day reaper retains exactly the entries whose
`last_seen` is strictly newer than `now - 259200` s, and in a full run over
an empty feed a call last seen at `now - retention - 1 s` is removed while
one last seen at `now - retention + 1 s` is retained, with no CompletedCall
emitted for the reaped entry. -/
theorem C7_spec :
    (∀ (a : List (String × TrackedCall)) (now : ℚ) (kv : String × TrackedCall),
      kv ∈ cleanup_active a now ↔ kv ∈ a ∧ kv.2.last_seen > now - 259200) ∧
    ((process_feed [("S", vStale), ("F", vFresh)] [] [] 1000000).active.map
        Prod.fst = ["F"] ∧
     (process_feed [("S", vStale), ("F", vFresh)] [] [] 1000000).history = []) := by
  constructor
  · intro a now kv
    simp [cleanup_active, List.mem_filter]
  · constructor
    · with_unfolding_all decide
    · with_unfolding_all decide

/-- Claim C10 (confirmed): the persisted history after every run is the
at-most-1000-element suffix of the pre-truncation history (old entries plus
this run's completions): its length never exceeds 1000 and the oldest
entries are the ones dropped. -/
theorem C10_spec (a : List (String × TrackedCall)) (h : List CompletedCall)
    (data : List RawRecord) (now : ℚ) :
    (process_feed a h data now).history.length ≤ 1000 ∧
    List.IsSuffix (process_feed a h data now).history
      (h ++ (run_update_loop a (build_live_vessels data) now).2.1) := by
  constructor
  · rw [show process_feed a h data now =
        process_run a h (build_live_vessels data) now from rfl,
      process_run_history_def]
    exact pyLast1000_length _
  · rw [show process_feed a h data now =
        process_run a h (build_live_vessels data) now from rfl,
      process_run_history_def]
    exact List.drop_suffix _ _

/-- Claim C2 (amended): a CompletedCall is emitted and the identity removed
only when the previously stored status is "A QUAI" (BERTHED) and the new
normalized status is a departure; for any other previous status — including
ANCHORED — the observation of DEPARTED emits nothing and does not remove
the call.  The first conjunct gives the full run outcome for a store whose
tracked call is at berth; the second shows the per-entry step emits nothing
when the previous status is not "A QUAI". -/
theorem C2_spec :
    (∀ (k : String) (v : TrackedCall) (e : RawRecord) (hist : List CompletedCall)
        (now : ℚ), v.current_status = "A QUAI" →
      process_run [(k, v)] hist [(k, ⟨e, "APPAREILLAGE"⟩)] now =
        ⟨[], pyLast1000 (hist ++
          [make_completed (update_vessel_timers v "APPAREILLAGE" now) now]),
         []⟩) ∧
    (∀ (live : List (String × LiveRec)) (now : ℚ) (k : String)
        (v : TrackedCall) (l : LiveRec),
      alookup k live = some l → v.current_status ≠ "A QUAI" →
      (process_active_entry live now k v).2 = (none, false)) := by
  constructor
  · intro k v e hist now hcs
    have hal : alookup k [(k, (⟨e, "APPAREILLAGE"⟩ : LiveRec))] =
        some ⟨e, "APPAREILLAGE"⟩ := by simp [alookup]
    have hpae := pae_of_live_complete now v hal hcs (Or.inl rfl)
    have hupd : run_update_loop [(k, v)] [(k, ⟨e, "APPAREILLAGE"⟩)] now =
        ([(k, { update_vessel_timers v "APPAREILLAGE" now with entry := e })],
         [make_completed (update_vessel_timers v "APPAREILLAGE" now) now],
         [k]) := by
      simp [run_update_loop, hpae]
    have hnvl : new_vessel_loop now (([] : List (String × TrackedCall)),
        ([] : List (String × List RawRecord))) [(k, ⟨e, "APPAREILLAGE"⟩)] =
        ([], []) := by
      simp only [new_vessel_loop]
      have hnone : (alookup k ([] : List (String × TrackedCall))).isSome = false :=
        rfl
      rw [if_neg (by simp [hnone]), if_pos ⟨rfl, by decide⟩]
    unfold process_run
    rw [hupd]
    dsimp only
    have hfilter : [(k, { update_vessel_timers v "APPAREILLAGE" now with
        entry := e })].filter (fun kv => decide (kv.1 ∉ [k])) = [] := by
      simp
    rw [hfilter, hnvl]
    rfl
  · intro live now k v l hl hcs
    rw [pae_of_live now v hl (by rintro ⟨h1, _⟩; exact hcs h1)]

/-- Claim C2 witness: a concrete berth-status call observed departing
completes and is removed, by the theorem. -/
theorem C2_witness :
    process_run [("111-E1", vBerth)] []
        [("111-E1", ⟨recX "APPAREILLAGE", "APPAREILLAGE"⟩)] 18000 =
      ⟨[], pyLast1000 ([] ++
        [make_completed (update_vessel_timers vBerth "APPAREILLAGE" 18000) 18000]),
       []⟩ :=
  C2_spec.1 "111-E1" vBerth (recX "APPAREILLAGE") [] 18000 rfl

/-- Claim C2 counterexample: Scenario D as the claim states it fails on the
code: a call tracked at ANCHORED (EN RADE) since t = 0 that is observed
DEPARTED at t = 5 h produces NO CompletedCall (history stays empty) and is
NOT removed — it stays active with status APPAREILLAGE and
anchorage_hours = 5. -/
theorem C2_counterexample :
    (process_feed [("111-E1", vAnch)] [] [recX "APPAREILLAGE"] 18000).history
        = [] ∧
    ((alookup "111-E1"
        (process_feed [("111-E1", vAnch)] [] [recX "APPAREILLAGE"] 18000).active).map
      (fun w => (w.current_status, w.anchorage_hours, w.berth_hours)) =
        some ("APPAREILLAGE", 5, 0)) := by
  constructor
  · with_unfolding_all decide
  · with_unfolding_all decide

/-- Claim C4 (amended): on an empty store, identities whose normalized
status is not PREVU are skipped entirely by the new-vessel loop — they are
neither registered into the active store nor reported as arrivals.  (Only
if a PREVU identity earlier in the same pass makes the store non-empty is a
later non-PREVU identity registered.) -/
theorem C4_spec (data : List RawRecord) (h : List CompletedCall) (now : ℚ)
    (hnp : ∀ e ∈ data, normalize_status (e.sITUATIONField.getD "") ≠ "PREVU") :
    (process_feed [] h data now).active = [] ∧
    (process_feed [] h data now).alerts = [] := by
  have hlive : ∀ kl ∈ build_live_vessels data, kl.2.status ≠ "PREVU" := by
    intro kl hkl
    obtain ⟨e, he, heq⟩ := build_live_mem hkl
    rw [heq]
    exact hnp e he
  have hupd : run_update_loop [] (build_live_vessels data) now = ([], [], []) :=
    rfl
  have hrun := process_run_of_update_id (h := h) hupd
  have hnvl := @nvl_all_skip now (build_live_vessels data) [] hlive
  constructor
  · show (process_run [] h (build_live_vessels data) now).active = []
    rw [hrun, hnvl]
    rfl
  · show (process_run [] h (build_live_vessels data) now).alerts = []
    rw [hrun, hnvl]

/-- Claim C4 witness: a vessel first observed already at berth on an empty
store is, by the theorem, neither tracked nor alerted. -/
theorem C4_witness :
    (process_feed [] [] [recX "A QUAI"] 5).active = [] ∧
    (process_feed [] [] [recX "A QUAI"] 5).alerts = [] :=
  C4_spec [recX "A QUAI"] [] 5 (by with_unfolding_all decide)

/-- Claim C4 counterexample: a vessel first observed already BERTHED on an
empty store is NOT registered into the active store (its identity resolves
to nothing after the run), contradicting the claim that it is tracked; no
arrival fires either. -/
theorem C4_counterexample :
    alookup (vessel_id (recX "A QUAI"))
        (process_feed [] [] [recX "A QUAI"] 0).active = none ∧
    normalize_status ((recX "A QUAI").sITUATIONField.getD "") ≠ "PREVU" ∧
    (process_feed [] [] [recX "A QUAI"] 0).alerts = [] := by
  refine ⟨?_, ?_, ?_⟩ <;> with_unfolding_all decide

/-- Claim C8 (amended): an observed UNKNOWN status for an already-tracked
identity OVERWRITES the stored status with UNKNOWN (there is no
keep-previous-status guard in the code); the last-seen timestamp is
refreshed to `now`, and the observation never completes or removes the
call. -/
theorem C8_spec (live : List (String × LiveRec)) (now : ℚ) (k : String)
    (v : TrackedCall) (l : LiveRec) (hl : alookup k live = some l)
    (hs : l.status = "UNKNOWN") :
    (process_active_entry live now k v).1.current_status = "UNKNOWN" ∧
    (process_active_entry live now k v).1.last_seen = now ∧
    (process_active_entry live now k v).2 = (none, false) := by
  have hc : ¬(v.current_status = "A QUAI" ∧
      (l.status = "APPAREILLAGE" ∨ l.status = "TERMINE")) := by
    rintro ⟨_, h2 | h2⟩ <;> rw [hs] at h2 <;> exact absurd h2 (by decide)
  rw [pae_of_live now v hl hc]
  refine ⟨?_, rfl, rfl⟩
  show l.status = "UNKNOWN"
  exact hs

/-- Claim C8 witness: the theorem applied to a tracked anchored call and a
concrete UNKNOWN live observation. -/
theorem C8_witness :
    (process_active_entry [("a", ⟨recXnone, "UNKNOWN"⟩)] 7200 "a" vAnch).1.current_status
        = "UNKNOWN" ∧
    (process_active_entry [("a", ⟨recXnone, "UNKNOWN"⟩)] 7200 "a" vAnch).1.last_seen
        = 7200 ∧
    (process_active_entry [("a", ⟨recXnone, "UNKNOWN"⟩)] 7200 "a" vAnch).2
        = (none, false) :=
  C8_spec [("a", ⟨recXnone, "UNKNOWN"⟩)] 7200 "a" vAnch ⟨recXnone, "UNKNOWN"⟩
    (by simp [alookup]) rfl

/-- Claim C8 counterexample: a tracked EN RADE call observed with an absent
status field (normalized UNKNOWN) has its stored status changed to UNKNOWN
— not left unchanged as the claim states. -/
theorem C8_counterexample :
    ((alookup "111-E1"
        (process_feed [("111-E1", vAnch)] [] [recXnone] 3600).active).map
      TrackedCall.current_status ≠ some "EN RADE") ∧
    ((alookup "111-E1"
        (process_feed [("111-E1", vAnch)] [] [recXnone] 3600).active).map
      TrackedCall.current_status = some "UNKNOWN") := by
  constructor
  · with_unfolding_all decide
  · with_unfolding_all decide

/-- Claim C9 (confirmed): an active record in an anchorage or berth status
whose identity is absent from the live feed is still re-timed by a run —
the elapsed hours since `last_updated` are added to the matching
accumulator and `last_seen` is reset to the run time — and consequently
such a record survives the 3-day cleanup in every run, no matter how many
consecutive runs it stays out of the feed. -/
theorem C9_spec :
    (∀ (a : List (String × TrackedCall)) (h : List CompletedCall)
        (live : List (String × LiveRec)) (now : ℚ) (k : String)
        (v : TrackedCall) (lu : ℚ),
      (a.map Prod.fst).Nodup → alookup k a = some v → alookup k live = none →
      v.current_status ∈ ANCHORAGE_STATUSES ++ BERTH_STATUSES →
      v.last_updated = some lu →
      alookup k (process_run a h live now).active =
          some (update_vessel_timers v v.current_status now) ∧
        (update_vessel_timers v v.current_status now).last_seen = now ∧
        (v.current_status ∈ ANCHORAGE_STATUSES →
          (update_vessel_timers v v.current_status now).anchorage_hours =
            v.anchorage_hours + (now - lu) / 3600) ∧
        (v.current_status ∈ BERTH_STATUSES →
          (update_vessel_timers v v.current_status now).berth_hours =
            v.berth_hours + (now - lu) / 3600)) ∧
    (∀ (a : List (String × TrackedCall)) (h : List CompletedCall)
        (polls : List (List (String × LiveRec) × ℚ)) (k : String)
        (v : TrackedCall),
      (a.map Prod.fst).Nodup → alookup k a = some v →
      v.current_status ∈ ANCHORAGE_STATUSES ++ BERTH_STATUSES →
      (∀ p ∈ polls, alookup k p.1 = none) →
      (alookup k (process_runs a h polls).active).isSome = true) := by
  constructor
  · intro a h live now k v lu hnd hv hl hm hlu
    refine ⟨absent_tracked_run hnd hv hl hm, rfl, ?_, ?_⟩
    · intro hA
      rw [uvt_anchorage, hlu]
      simp [hA]
    · intro hB
      rw [uvt_berth, hlu]
      simp [hB]
  · intro a h polls k v hnd hv hm hab
    induction polls generalizing a h v with
    | nil => simp [process_runs, hv]
    | cons p rest ih =>
      obtain ⟨live, t⟩ := p
      simp only [process_runs]
      apply ih
      · exact nodup_process_run hnd
      · exact absent_tracked_run hnd hv (hab (live, t) (List.mem_cons_self _ _)) hm
      · rw [uvt_current_status]
        exact hm
      · intro q hq
        exact hab q (List.mem_cons_of_mem _ hq)

/-- Claim C9 witness: a concrete anchored call absent from an empty feed is
still present after one run with its accumulator advanced, and still
tracked after two consecutive feedless runs. -/
theorem C9_witness :
    (alookup "111-E1" (process_run [("111-E1", vAnch)] [] [] 3600).active =
        some (update_vessel_timers vAnch vAnch.current_status 3600)) ∧
    ((alookup "111-E1"
        (process_runs [("111-E1", vAnch)] [] [([], 3600), ([], 7200)]).active).isSome
      = true) :=
  ⟨(C9_spec.1 [("111-E1", vAnch)] [] [] 3600 "111-E1" vAnch 0 (by decide)
      (by with_unfolding_all decide) rfl (by decide) rfl).1,
   C9_spec.2 [("111-E1", vAnch)] [] [([], 3600), ([], 7200)] "111-E1" vAnch
     (by decide) (by with_unfolding_all decide) (by decide) (by decide)⟩

/-- Claim C6 (amended): re-running the pass with the same raw feed and the
same `now` emits no arrival alerts the second time, appends nothing to the
history, and preserves every entry of the first run's store unchanged (no
duplicate accumulation).  The full store state is however NOT unchanged in
general: an identity skipped by the first-run empty-store check (or removed
as departed) that is still in the feed can be newly registered by the
second pass, so idempotence as claimed fails. -/
theorem C6_spec (a : List (String × TrackedCall)) (h : List CompletedCall)
    (data : List RawRecord) (now : ℚ) :
    (process_feed (process_feed a h data now).active
        (process_feed a h data now).history data now).alerts = [] ∧
    (process_feed (process_feed a h data now).active
        (process_feed a h data now).history data now).history =
      (process_feed a h data now).history ∧
    ∀ (k : String) (v : TrackedCall),
      alookup k (process_feed a h data now).active = some v →
      alookup k (process_feed (process_feed a h data now).active
          (process_feed a h data now).history data now).active = some v := by
  have hnd_live := build_live_nodup data
  have hfeed : ∀ (A : List (String × TrackedCall)) (H : List CompletedCall),
      process_feed A H data now = process_run A H (build_live_vessels data) now :=
    fun _ _ => rfl
  simp only [hfeed]
  set live := build_live_vessels data with hlivedef
  set r1 := process_run a h live now with hr1def
  have hstab : ∀ pair ∈ r1.active,
      process_active_entry live now pair.1 pair.2 = (pair.2, none, false) :=
    run_active_stable hnd_live
  have hupd : run_update_loop r1.active live now = (r1.active, [], []) :=
    run_update_stable hstab
  have hrun := @process_run_of_update_id r1.active r1.history live now hupd
  refine ⟨?_, ?_, ?_⟩
  · rw [hrun]
    dsimp only
    apply nvl_no_alerts
    intro kl hkl hpv
    exact @prevu_in_run a h live now kl.1 kl.2 hnd_live hkl hpv
  · rw [hrun]
    dsimp only
    apply pyLast1000_of_le
    rw [hr1def, process_run_history_def]
    exact pyLast1000_length _
  · intro k v hkv
    rw [hrun]
    dsimp only
    unfold cleanup_active
    have h1 := @nvl_alookup_some now k v live (r1.active, []) hkv
    apply alookup_filter_of_pred h1
    have hmem := mem_of_alookup hkv
    rw [hr1def, process_run_active_def] at hmem
    exact (List.mem_filter.1 hmem).2

/-- Claim C6 witness: the PREVU vessel registered by the first run is still
present, unchanged, after the identical second run — by the theorem,
applied at a concrete store and feed. -/
theorem C6_witness :
    alookup "222-E2"
        (process_feed (process_feed [] [] [recX "A QUAI", recY "PREVU"] 0).active
          (process_feed [] [] [recX "A QUAI", recY "PREVU"] 0).history
          [recX "A QUAI", recY "PREVU"] 0).active =
      some ⟨recY "PREVU", "PREVU", 0, 0, 0, some 0, 0⟩ :=
  (C6_spec [] [] [recX "A QUAI", recY "PREVU"] 0).2.2 "222-E2"
    ⟨recY "PREVU", "PREVU", 0, 0, 0, some 0, 0⟩ (by with_unfolding_all decide)

/-- Claim C6 counterexample: with an empty store and the feed
[X at A QUAI, Y at PREVU], the first run registers only Y (X is skipped by
the empty-store check), while the second identical run at the same `now`
also registers X — the store state after the second run differs from the
state after the first, so `process` is not idempotent as claimed. -/
theorem C6_counterexample :
    (process_feed (process_feed [] [] [recX "A QUAI", recY "PREVU"] 0).active
        (process_feed [] [] [recX "A QUAI", recY "PREVU"] 0).history
        [recX "A QUAI", recY "PREVU"] 0).active.map Prod.fst ≠
      (process_feed [] [] [recX "A QUAI", recY "PREVU"] 0).active.map Prod.fst := by
  with_unfolding_all decide

end Monitor
